import Mathlib

/-!
Shallow embedding of `src/bot.py`, a Telegram-to-Qwen relay bot.

Modelled here: the output formatter (`clean_markdown`,
`format_list_as_markdown`), the chunked delivery
(`send_message_in_chunks`, whose segmentation is `chunkText`), the
context store (`get_context`, `save_context`) and the per-message
orchestrator (`handle_message`), together with theorems about their
specified properties.

Text is modelled as `List Char`; Python slicing, `str.strip()`,
`str.split("\n")` and `str.replace` are translated directly
(`str.strip()` over the ASCII whitespace set).
-/

set_option autoImplicit false

namespace Bot

abbrev Text := List Char

/-- Whitespace test of Python `str.strip()` (ASCII whitespace set). -/
def pyIsSpace (c : Char) : Bool :=
  c == ' ' || c == '\t' || c == '\n' || c == '\r' || c == '\x0b' || c == '\x0c'

/-- Python `s.lstrip()`. -/
def lstrip (s : Text) : Text := s.dropWhile pyIsSpace

/-- Python `s.rstrip()`. -/
def rstrip (s : Text) : Text := (s.reverse.dropWhile pyIsSpace).reverse

/-- Python `s.strip()`. -/
def strip (s : Text) : Text := rstrip (lstrip s)

/-- Python `clean_markdown` (bot.py line 96): deletes every backslash,
translating `text.replace` of the one-character needle char by char. -/
def clean_markdown : Text → Text
  | [] => []
  | c :: rest => if c = '\\' then clean_markdown rest else c :: clean_markdown rest

/-- Python `response_text.split("\n")` (bot.py line 101): split on every
newline, keeping empty segments, so a trailing newline yields a trailing
empty segment. -/
def splitLines : Text → List Text
  | [] => [[]]
  | c :: rest =>
    if c = '\n' then [] :: splitLines rest
    else
      match splitLines rest with
      | [] => [[c]]
      | h :: t => (c :: h) :: t

/-- The ordinal test of bot.py line 105: `line.strip().startswith("1.")`
through `"5."`, applied here to the already-stripped line. -/
def startsWithOrdinal (s : Text) : Bool :=
  List.isPrefixOf ['1', '.'] s || List.isPrefixOf ['2', '.'] s ||
  List.isPrefixOf ['3', '.'] s || List.isPrefixOf ['4', '.'] s ||
  List.isPrefixOf ['5', '.'] s

/-- The body of the loop of `format_list_as_markdown` (bot.py lines
102-108) for one line: a line whose stripped form starts with a dash
becomes the bullet glyph, a space, then `line[1:]` stripped (the slice
drops the first character of the raw line, not the dash of the stripped
line), then a newline; the ordinal branch and the default branch both
emit the stripped line followed by a newline. -/
def formatLine (line : Text) : Text :=
  if List.isPrefixOf ['-'] (strip line) then
    '•' :: ' ' :: (strip (line.drop 1) ++ ['\n'])
  else if startsWithOrdinal (strip line) then
    strip line ++ ['\n']
  else
    strip line ++ ['\n']

/-- Python `format_list_as_markdown` (bot.py lines 98-109): accumulate
`formatLine` over the newline-split segments, in order. -/
def format_list_as_markdown (response_text : Text) : Text :=
  (splitLines response_text).foldl (fun acc line => acc ++ formatLine line) []

/-- Default `max_chunk_size` of `send_message_in_chunks` (bot.py line 115),
the Telegram per-message ceiling. -/
def MAX_CHUNK_SIZE : Nat := 4096

/-- Structural helper for `chunkText`: each step takes one slice
`content[0 : maxChunkSize]` and recurses on the rest, with a fuel bound
(instantiated to the length of the content, which always suffices:
every step consumes at least one character). -/
def chunkTextFuel : Nat → Text → Nat → List Text
  | _, [], _ => []
  | 0, _ :: _, _ => []
  | fuel + 1, c :: rest, maxChunkSize =>
    (c :: rest.take (maxChunkSize - 1)) ::
      chunkTextFuel fuel (rest.drop (maxChunkSize - 1)) maxChunkSize

/-- The segmentation of `send_message_in_chunks` (bot.py lines 117-118):
`content[i : i + max_chunk_size]` for `i = 0, max_chunk_size, 2*max_chunk_size, ...`.
With `maxChunkSize = 0` Python's `range` raises, so that case is outside
the modelled domain (the model then emits singleton chunks). -/
def chunkText (content : Text) (maxChunkSize : Nat) : List Text :=
  chunkTextFuel content.length content maxChunkSize

/-- One conversation turn, the dict `{'role': ..., 'content': ...}` of
bot.py lines 152, 159 and 180. -/
structure Turn where
  role : Text
  content : Text
deriving DecidableEq

def userRole : Text := "user".data

def assistantRole : Text := "assistant".data

/-- Outcome of the storage read performed by `get_context` (bot.py lines
76-91): the connection attempt of `get_db_connection`, then
`conn.fetchrow`, then `json.loads`, may each fail; otherwise the row is
absent or holds a history. -/
inductive StoreRead where
  | connFail
  | queryFail
  | deserFail
  | noRecord
  | record (h : List Turn)
deriving DecidableEq

/-- Python `get_context` (bot.py lines 76-91). `get_db_connection` is
called before the `try` block and re-raises its own failure (bot.py line
58), so a connection failure propagates to the caller (`Except.error`);
a failure of the query or of `json.loads`, both inside the `try`, is
caught and yields `[]`, as does an absent or empty row. -/
def get_context : StoreRead → Except Unit (List Turn)
  | StoreRead.connFail => Except.error ()
  | StoreRead.queryFail => Except.ok []
  | StoreRead.deserFail => Except.ok []
  | StoreRead.noRecord => Except.ok []
  | StoreRead.record h => Except.ok h

/-- Python `save_context` (bot.py lines 61-73). The connection is again
acquired before the `try` block, so a connection failure propagates; a
failure of the upsert itself is caught and logged (nothing persisted,
`Except.ok none`); on success the full history is upserted
(`Except.ok (some h)`). -/
def save_context (connOk execOk : Bool) (h : List Turn) :
    Except Unit (Option (List Turn)) :=
  if connOk = false then Except.error ()
  else if execOk then Except.ok (some h) else Except.ok none

/-- The dashscope reply of bot.py line 162, as tested on line 164:
`response` falsy (`absent`), truthy but without an `output` key
(`noOutput`), or well formed with `output.text`. -/
inductive Response where
  | absent
  | noOutput
  | ok (text : Text)
deriving DecidableEq

def Response.wellFormed : Response → Bool
  | Response.ok _ => true
  | _ => false

/-- Failure script for one run of `handle_message`: whether the
"Печатает..." send succeeds, at which chunk index (if any) the dispatch
of the formatted text raises, likewise for the fallback dispatch of the
raw text, whether `save_context` gets its connection and whether its
upsert succeeds, and whether the deletion of the typing message
succeeds. -/
structure World where
  typingSendOk : Bool
  formattedFail : Option Nat
  fallbackFail : Option Nat
  saveConnOk : Bool
  saveExecOk : Bool
  typingDeleteOk : Bool
deriving DecidableEq

/-- Python `send_message_in_chunks` (bot.py lines 115-119) under a
failure script: sends the chunks of `content` in order; `failAt = some k`
with `k` in range means the send of chunk `k` raises after chunks
`0..k-1` were delivered. Returns the delivered chunks and whether the
loop completed. -/
def send_message_in_chunks (content : Text) (maxChunkSize : Nat)
    (failAt : Option Nat) : List Text × Bool :=
  let chunks := chunkText content maxChunkSize
  match failAt with
  | none => (chunks, true)
  | some k => if k < chunks.length then (chunks.take k, false) else (chunks, true)

def noResponseMsg : Text := "Не удалось получить ответ от API. Попробуйте позже.".data

def genericErrorMsg : Text := "Произошла ошибка при отправке запроса.".data

/-- Observable outcome of one `handle_message` run: whether an exception
escaped the handler, the prompt and message list passed to the LLM call
(when reached), the chunk payloads delivered by `reply_text` in order,
the history handed to a successful upsert (none when nothing was
persisted), the plain notice texts sent to the user, and whether the
typing message was deleted. -/
structure HandleResult where
  crashed : Bool
  llmPrompt : Option Text
  llmMessages : Option (List Turn)
  deliveredChunks : List Text
  savedHistory : Option (List Turn)
  notices : List Text
  typingDeleted : Bool
deriving DecidableEq

/-- Python `handle_message` (bot.py lines 137-190), step by step:
`get_context` outside the `try` (its connection failure escapes the
handler); the no-op `if not context_data` guard; `clean_markdown` on the
inbound text; append of the user turn; inside the `try`: the
"Печатает..." send, the projection of the history into `messages`, the
dashscope call, then on a well-formed reply format-then-clean, dispatch
with fallback to the raw text, append of the assistant turn,
`save_context`, and on a malformed reply the no-response notice; finally
the typing-message delete; any exception inside the `try` lands in the
generic-error notice. -/
def handle_message (store : StoreRead) (userMsg : Text) (resp : Response)
    (w : World) : HandleResult :=
  match get_context store with
  | Except.error _ =>
    { crashed := true, llmPrompt := none, llmMessages := none,
      deliveredChunks := [], savedHistory := none, notices := [],
      typingDeleted := false }
  | Except.ok ctx0 =>
    let context_data := if ctx0.isEmpty then [] else ctx0
    let user_message_escaped := clean_markdown userMsg
    let context_data :=
      context_data ++ [{ role := userRole, content := user_message_escaped }]
    if w.typingSendOk = false then
      { crashed := false, llmPrompt := none, llmMessages := none,
        deliveredChunks := [], savedHistory := none,
        notices := [genericErrorMsg], typingDeleted := false }
    else
      let messages := context_data.map fun msg =>
        ({ role := msg.role, content := msg.content } : Turn)
      match resp with
      | Response.ok output_content =>
        let formatted_output := format_list_as_markdown output_content
        let clean_output := clean_markdown formatted_output
        let first := send_message_in_chunks clean_output MAX_CHUNK_SIZE w.formattedFail
        let second := send_message_in_chunks output_content MAX_CHUNK_SIZE w.fallbackFail
        let delivered := if first.2 then first.1 else first.1 ++ second.1
        if (first.2 || second.2) = false then
          { crashed := false, llmPrompt := some user_message_escaped,
            llmMessages := some messages, deliveredChunks := delivered,
            savedHistory := none, notices := [genericErrorMsg],
            typingDeleted := false }
        else
          let context_data :=
            context_data ++ [{ role := assistantRole, content := clean_output }]
          match save_context w.saveConnOk w.saveExecOk context_data with
          | Except.error _ =>
            { crashed := false, llmPrompt := some user_message_escaped,
              llmMessages := some messages, deliveredChunks := delivered,
              savedHistory := none, notices := [genericErrorMsg],
              typingDeleted := false }
          | Except.ok saved =>
            if w.typingDeleteOk then
              { crashed := false, llmPrompt := some user_message_escaped,
                llmMessages := some messages, deliveredChunks := delivered,
                savedHistory := saved, notices := [], typingDeleted := true }
            else
              { crashed := false, llmPrompt := some user_message_escaped,
                llmMessages := some messages, deliveredChunks := delivered,
                savedHistory := saved, notices := [genericErrorMsg],
                typingDeleted := false }
      | _ =>
        if w.typingDeleteOk then
          { crashed := false, llmPrompt := some user_message_escaped,
            llmMessages := some messages, deliveredChunks := [],
            savedHistory := none, notices := [noResponseMsg],
            typingDeleted := true }
        else
          { crashed := false, llmPrompt := some user_message_escaped,
            llmMessages := some messages, deliveredChunks := [],
            savedHistory := none, notices := [noResponseMsg, genericErrorMsg],
            typingDeleted := false }

theorem chunkTextFuel_flatten (fuel : Nat) :
    ∀ (content : Text) (m : Nat), content.length ≤ fuel →
      (chunkTextFuel fuel content m).flatten = content := by
  induction fuel with
  | zero =>
    intro content m hlen
    cases content with
    | nil => rfl
    | cons c rest => simp at hlen
  | succ fuel ih =>
    intro content m hlen
    cases content with
    | nil => rfl
    | cons c rest =>
      simp only [chunkTextFuel, List.flatten_cons, List.cons_append]
      rw [ih (rest.drop (m - 1)) m, List.take_append_drop]
      simp only [List.length_cons] at hlen
      calc (rest.drop (m - 1)).length ≤ rest.length := by
              simp [List.length_drop]
        _ ≤ fuel := Nat.le_of_succ_le_succ hlen

theorem chunkText_flatten (content : Text) (m : Nat) :
    (chunkText content m).flatten = content :=
  chunkTextFuel_flatten content.length content m (Nat.le_refl _)

theorem chunkTextFuel_length_le (fuel : Nat) :
    ∀ (content : Text) (m : Nat), 0 < m →
      ∀ c ∈ chunkTextFuel fuel content m, c.length ≤ m := by
  induction fuel with
  | zero =>
    intro content m _ c hc
    cases content <;> simp [chunkTextFuel] at hc
  | succ fuel ih =>
    intro content m hm x hx
    cases content with
    | nil => simp [chunkTextFuel] at hx
    | cons c rest =>
      simp only [chunkTextFuel, List.mem_cons] at hx
      rcases hx with rfl | hx
      · simp only [List.length_cons, List.length_take]
        omega
      · exact ih (rest.drop (m - 1)) m hm x hx

theorem chunkText_length_le (content : Text) (m : Nat) (hm : 0 < m) :
    ∀ c ∈ chunkText content m, c.length ≤ m :=
  chunkTextFuel_length_le content.length content m hm

theorem chunkText_nil (m : Nat) : chunkText ([] : Text) m = [] := rfl

/-- C1: for every text and every positive limit, the segmentation of
`send_message_in_chunks` concatenates back to the original text, every
chunk has length at most the limit, and the empty text yields no chunks
(hence no delivery call). -/
theorem chunking_reassembles_and_bounds (T : Text) (L : Nat) (hL : 0 < L) :
    (chunkText T L).flatten = T ∧ (∀ c ∈ chunkText T L, c.length ≤ L) ∧
      chunkText ([] : Text) L = [] ∧
      send_message_in_chunks ([] : Text) L none = ([], true) :=
  ⟨chunkText_flatten T L, chunkText_length_le T L hL, rfl, rfl⟩

/-- Witness for C1 at `T = "abcdefg"`, `L = 3`. -/
theorem chunking_reassembles_and_bounds_witness :
    (chunkText ("abcdefg".data) 3).flatten = "abcdefg".data ∧
      (∀ c ∈ chunkText ("abcdefg".data) 3, c.length ≤ 3) ∧
      chunkText ([] : Text) 3 = [] ∧
      send_message_in_chunks ([] : Text) 3 none = ([], true) :=
  chunking_reassembles_and_bounds ("abcdefg".data) 3 (by decide)

/-- C7: `clean_markdown` deletes exactly the backslash characters and
leaves everything else unchanged and in order (it is the backslash
filter), and in particular maps `"a\x5c*b"` to `"a*b"`. -/
theorem clean_markdown_deletes_backslashes :
    (∀ t : Text, clean_markdown t = t.filter (fun c => c != '\\')) ∧
      clean_markdown ("a\\*b".data) = "a*b".data := by
  constructor
  · intro t
    induction t with
    | nil => rfl
    | cons c rest ih =>
      by_cases h : c = '\\' <;>
        simp [clean_markdown, h, ih, List.filter_cons, bne_iff_ne]
  · decide

/-- C10: `clean_markdown` is idempotent, so the pipeline's second
application of escape-stripping removes nothing further from text that
was already stripped. -/
theorem clean_markdown_idempotent (t : Text) :
    clean_markdown (clean_markdown t) = clean_markdown t := by
  induction t with
  | nil => rfl
  | cons c rest ih =>
    by_cases h : c = '\\' <;> simp [clean_markdown, h, ih]

theorem splitLines_ne_nil (t : Text) : splitLines t ≠ [] := by
  cases t with
  | nil => simp [splitLines]
  | cons c rest =>
    by_cases h : c = '\n'
    · simp [splitLines, h]
    · simp only [splitLines, h, if_false]
      cases hr : splitLines rest <;> simp

theorem foldl_append_eq_flatten (ls : List Text) (acc : Text) :
    ls.foldl (fun a line => a ++ formatLine line) acc =
      acc ++ (ls.map formatLine).flatten := by
  induction ls generalizing acc with
  | nil => simp
  | cons l ls ih => simp [ih]

theorem format_eq_flatten_map (t : Text) :
    format_list_as_markdown t = ((splitLines t).map formatLine).flatten := by
  simpa using foldl_append_eq_flatten (splitLines t) []

/-- Per-line rewrite exactly as claim C5 words it: the remainder after
the dash of the trimmed content, trimmed; all other lines pass through
trimmed (each line terminated by the separator newline). -/
def specLineC5 (line : Text) : Text :=
  if List.isPrefixOf ['-'] (strip line) then
    '•' :: ' ' :: (strip ((strip line).drop 1) ++ ['\n'])
  else
    strip line ++ ['\n']

/-- Per-line rewrite as amended: a dash line becomes the bullet glyph, a
space, then the raw line with its first character removed, trimmed (so a
dash preceded by whitespace is kept, since the slice removes the leading
whitespace character instead of the dash); every other line passes
through trimmed. -/
def amendedLineC5 (line : Text) : Text :=
  if List.isPrefixOf ['-'] (strip line) then
    '•' :: ' ' :: (strip (line.drop 1) ++ ['\n'])
  else
    strip line ++ ['\n']

/-- Counterexample to C5 as stated: on the line `" - a"` (leading
whitespace before the dash) the code produces `"• - a\n"`, not the
claimed bullet-plus-remainder-after-the-dash form `"• a\n"`. -/
theorem format_bullet_line_counterexample :
    format_list_as_markdown (" - a".data) = ("• - a\n").data ∧
      ((splitLines (" - a".data)).map specLineC5).flatten = ("• a\n").data ∧
      format_list_as_markdown (" - a".data) ≠
        ((splitLines (" - a".data)).map specLineC5).flatten := by
  refine ⟨by decide, by decide, by decide⟩

/-- C5 as amended: `format_list_as_markdown` processes the newline-split
segments one by one under `amendedLineC5` — a segment whose trimmed
content starts with a dash becomes the bullet glyph, a space, then the
segment minus its first raw character, trimmed (which retains the dash
when whitespace precedes it); ordinal segments `1.`-`5.` and all other
segments pass through trimmed. -/
theorem format_follows_amended_line_rule (t : Text) :
    format_list_as_markdown t = ((splitLines t).map amendedLineC5).flatten := by
  rw [format_eq_flatten_map]
  have h : ∀ line : Text, formatLine line = amendedLineC5 line := by
    intro line
    unfold formatLine amendedLineC5
    by_cases h1 : List.isPrefixOf ['-'] (strip line)
    · simp [h1]
    · by_cases h2 : startsWithOrdinal (strip line) <;> simp [h1, h2]
  rw [funext h]

theorem mem_lstrip {c : Char} {s : Text} (h : c ∈ lstrip s) : c ∈ s :=
  (List.dropWhile_sublist pyIsSpace).subset h

theorem mem_rstrip {c : Char} {s : Text} (h : c ∈ rstrip s) : c ∈ s := by
  unfold rstrip at h
  rw [List.mem_reverse] at h
  have h2 := (List.dropWhile_sublist pyIsSpace).subset h
  rwa [List.mem_reverse] at h2

theorem mem_strip {c : Char} {s : Text} (h : c ∈ strip s) : c ∈ s :=
  mem_lstrip (mem_rstrip h)

theorem splitLines_length (t : Text) :
    (splitLines t).length = t.count '\n' + 1 := by
  induction t with
  | nil => simp [splitLines]
  | cons c rest ih =>
    by_cases h : c = '\n'
    · subst h
      simp [splitLines, List.count_cons, ih]
    · simp only [splitLines, h, if_false]
      cases hr : splitLines rest with
      | nil => exact absurd hr (splitLines_ne_nil rest)
      | cons hd tl =>
        rw [hr] at ih
        simp only [List.length_cons] at ih ⊢
        simp [List.count_cons, h, ih]

theorem mem_splitLines_no_newline (t : Text) :
    ∀ l ∈ splitLines t, '\n' ∉ l := by
  induction t with
  | nil =>
    intro l hl
    simp only [splitLines, List.mem_singleton] at hl
    subst hl
    simp
  | cons c rest ih =>
    intro l hl
    by_cases h : c = '\n'
    · subst h
      have hsplit : splitLines ('\n' :: rest) = [] :: splitLines rest := by
        simp [splitLines]
      rw [hsplit] at hl
      rcases List.mem_cons.mp hl with rfl | hl
      · simp
      · exact ih l hl
    · simp only [splitLines, h, if_false] at hl
      cases hr : splitLines rest with
      | nil => exact absurd hr (splitLines_ne_nil rest)
      | cons hd tl =>
        rw [hr] at hl
        simp only [List.mem_cons] at hl
        rcases hl with rfl | hl
        · intro hmem
          rcases List.mem_cons.mp hmem with heq | hmem2
          · exact h heq.symm
          · exact ih hd (by rw [hr]; exact List.mem_cons_self hd tl) hmem2
        · exact ih l (by rw [hr]; exact List.mem_cons_of_mem hd hl)

theorem formatLine_count_newline (l : Text) (hl : '\n' ∉ l) :
    (formatLine l).count '\n' = 1 := by
  have hs : '\n' ∉ strip l := fun h => hl (mem_strip h)
  have hd : '\n' ∉ strip (l.drop 1) := fun h =>
    hl ((List.drop_sublist 1 l).subset (mem_strip h))
  unfold formatLine
  by_cases h1 : List.isPrefixOf ['-'] (strip l)
  · rw [if_pos h1]
    rw [List.count_cons_of_ne (by decide), List.count_cons_of_ne (by decide)]
    have hd0 : (strip (List.drop 1 l)).count '\n' = 0 := List.count_eq_zero.mpr hd
    rw [List.count_append, hd0]
    decide
  · by_cases h2 : startsWithOrdinal (strip l) <;>
      simp [h1, h2, List.count_append, List.count_eq_zero.mpr hs]

theorem sum_map_ones (ls : List Text) (f : Text → Nat)
    (hf : ∀ l ∈ ls, f l = 1) : (ls.map f).sum = ls.length := by
  induction ls with
  | nil => rfl
  | cons l ls ih =>
    have h1 := hf l (List.mem_cons_self l ls)
    have h2 := ih (fun x hx => hf x (List.mem_cons_of_mem l hx))
    simp only [List.map_cons, List.sum_cons, List.length_cons, h1, h2]
    omega

theorem format_newline_count (t : Text) :
    (format_list_as_markdown t).count '\n' = t.count '\n' + 1 := by
  rw [format_eq_flatten_map, List.count_flatten, List.map_map,
    sum_map_ones (splitLines t) (List.count '\n' ∘ formatLine)
      (fun l hl => formatLine_count_newline l (mem_splitLines_no_newline t l hl)),
    splitLines_length]

/-- Counterexample to C6 as stated: the code yields an extra blank line
for input ending in a newline, so neither of the claimed outputs holds. -/
theorem format_trailing_newline_counterexample :
    format_list_as_markdown ("- a\n- b\n".data) ≠ ("• a\n• b\n").data ∧
      format_list_as_markdown ("1. a\n".data) ≠ ("1. a\n").data :=
  ⟨by decide, by decide⟩

/-- C6 as amended: `format_list_as_markdown` appends one newline after
every newline-split segment — including the trailing empty segment that
a final newline produces — so the output always holds exactly one more
newline than the input; `"- a\n- b\n"` yields `"• a\n• b\n\n"` and
`"1. a\n"` yields `"1. a\n\n"`. -/
theorem format_appends_newline_per_segment :
    format_list_as_markdown ("- a\n- b\n".data) = ("• a\n• b\n\n").data ∧
      format_list_as_markdown ("1. a\n".data) = ("1. a\n\n").data ∧
      ∀ t : Text, (format_list_as_markdown t).count '\n' = t.count '\n' + 1 :=
  ⟨by decide, by decide, format_newline_count⟩

theorem map_turn_projection (l : List Turn) :
    (l.map fun msg => ({ role := msg.role, content := msg.content } : Turn)) = l := by
  induction l with
  | nil => rfl
  | cons x xs ih => simp [ih]

theorem ite_isEmpty_self (l : List Turn) :
    (if l.isEmpty then ([] : List Turn) else l) = l := by
  cases l <;> simp

/-- On a reachable store, a well-formed reply, a clean formatted
dispatch and a working save, `handle_message` produces exactly this
outcome (the typing-message deletion only decides whether the final
generic-error notice appears). -/
theorem handle_message_ok_spec (prior : List Turn) (userMsg replyText : Text)
    (w : World) (h1 : w.typingSendOk = true) (h2 : w.formattedFail = none)
    (h3 : w.saveConnOk = true) (h4 : w.saveExecOk = true) :
    handle_message (StoreRead.record prior) userMsg (Response.ok replyText) w =
      { crashed := false
        llmPrompt := some (clean_markdown userMsg)
        llmMessages := some
          (prior ++ [{ role := userRole, content := clean_markdown userMsg }])
        deliveredChunks :=
          chunkText (clean_markdown (format_list_as_markdown replyText)) MAX_CHUNK_SIZE
        savedHistory := some
          (prior ++ [{ role := userRole, content := clean_markdown userMsg },
            { role := assistantRole,
              content := clean_markdown (format_list_as_markdown replyText) }])
        notices := if w.typingDeleteOk then [] else [genericErrorMsg]
        typingDeleted := w.typingDeleteOk } := by
  cases htd : w.typingDeleteOk <;>
    simp [handle_message, get_context, save_context, send_message_in_chunks,
      h1, h2, h3, h4, htd, ite_isEmpty_self, map_turn_projection]

/-- C2: on a successful exchange the LLM receives exactly the prior
history with the escape-stripped user turn appended, in order, with no
truncation, filtering or reordering; the persisted history is that list
with the formatted-and-cleaned assistant reply appended; and the
delivery calls concatenate to the formatted reply. -/
theorem exchange_appends_and_persists (prior : List Turn)
    (userMsg replyText : Text) (w : World) (h1 : w.typingSendOk = true)
    (h2 : w.formattedFail = none) (h3 : w.saveConnOk = true)
    (h4 : w.saveExecOk = true) :
    (handle_message (StoreRead.record prior) userMsg (Response.ok replyText) w).llmMessages =
        some (prior ++ [{ role := userRole, content := clean_markdown userMsg }]) ∧
      (handle_message (StoreRead.record prior) userMsg (Response.ok replyText) w).savedHistory =
        some (prior ++ [{ role := userRole, content := clean_markdown userMsg },
          { role := assistantRole,
            content := clean_markdown (format_list_as_markdown replyText) }]) ∧
      (handle_message (StoreRead.record prior) userMsg (Response.ok replyText) w).deliveredChunks.flatten =
        clean_markdown (format_list_as_markdown replyText) ∧
      (handle_message (StoreRead.record prior) userMsg (Response.ok replyText) w).crashed = false := by
  rw [handle_message_ok_spec prior userMsg replyText w h1 h2 h3 h4]
  exact ⟨rfl, rfl, chunkText_flatten _ _, rfl⟩

/-- Witness for C2: inbound `"Hello"` on empty history with reply
`"Hi there"`. -/
theorem exchange_appends_and_persists_witness :
    (handle_message (StoreRead.record []) ("Hello".data)
        (Response.ok ("Hi there".data))
        ⟨true, none, none, true, true, true⟩).llmMessages =
        some ([] ++ [{ role := userRole, content := clean_markdown ("Hello".data) }]) ∧
      (handle_message (StoreRead.record []) ("Hello".data)
        (Response.ok ("Hi there".data))
        ⟨true, none, none, true, true, true⟩).savedHistory =
        some ([] ++ [{ role := userRole, content := clean_markdown ("Hello".data) },
          { role := assistantRole,
            content := clean_markdown (format_list_as_markdown ("Hi there".data)) }]) ∧
      (handle_message (StoreRead.record []) ("Hello".data)
        (Response.ok ("Hi there".data))
        ⟨true, none, none, true, true, true⟩).deliveredChunks.flatten =
        clean_markdown (format_list_as_markdown ("Hi there".data)) ∧
      (handle_message (StoreRead.record []) ("Hello".data)
        (Response.ok ("Hi there".data))
        ⟨true, none, none, true, true, true⟩).crashed = false :=
  exchange_appends_and_persists [] ("Hello".data) ("Hi there".data)
    ⟨true, none, none, true, true, true⟩ rfl rfl rfl rfl

/-- C4: a falsy or malformed LLM reply makes the handler emit the
no-response notice first, deliver no reply chunks, persist nothing (so
the stored history is unchanged), and escape no exception. -/
theorem malformed_reply_leaves_history_unchanged (store : StoreRead)
    (prior : List Turn) (hstore : get_context store = Except.ok prior)
    (userMsg : Text) (resp : Response) (hresp : resp.wellFormed = false)
    (w : World) (h1 : w.typingSendOk = true) :
    (handle_message store userMsg resp w).savedHistory = none ∧
      (handle_message store userMsg resp w).deliveredChunks = [] ∧
      (handle_message store userMsg resp w).notices.head? = some noResponseMsg ∧
      (handle_message store userMsg resp w).crashed = false := by
  cases resp with
  | ok t => simp [Response.wellFormed] at hresp
  | absent => cases htd : w.typingDeleteOk <;> simp [handle_message, hstore, h1, htd]
  | noOutput => cases htd : w.typingDeleteOk <;> simp [handle_message, hstore, h1, htd]

/-- Witness for C4: absent reply on an empty store. -/
theorem malformed_reply_leaves_history_unchanged_witness :
    (handle_message StoreRead.noRecord ("Hello".data) Response.absent
        ⟨true, none, none, true, true, true⟩).savedHistory = none ∧
      (handle_message StoreRead.noRecord ("Hello".data) Response.absent
        ⟨true, none, none, true, true, true⟩).deliveredChunks = [] ∧
      (handle_message StoreRead.noRecord ("Hello".data) Response.absent
        ⟨true, none, none, true, true, true⟩).notices.head? = some noResponseMsg ∧
      (handle_message StoreRead.noRecord ("Hello".data) Response.absent
        ⟨true, none, none, true, true, true⟩).crashed = false :=
  malformed_reply_leaves_history_unchanged StoreRead.noRecord [] rfl
    ("Hello".data) Response.absent rfl ⟨true, none, none, true, true, true⟩ rfl

/-- C8: when the dispatch of the formatted text raises at chunk `k`, the
handler dispatches the raw reply text in chunks under the same 4096
ceiling (which concatenates back to the raw reply), the exchange still
persists both turns, and no error notice reaches the user. -/
theorem formatted_dispatch_failure_falls_back (prior : List Turn)
    (userMsg replyText : Text) (w : World) (k : Nat)
    (h1 : w.typingSendOk = true) (h2 : w.formattedFail = some k)
    (hk : k < (chunkText (clean_markdown (format_list_as_markdown replyText)) MAX_CHUNK_SIZE).length)
    (h3 : w.fallbackFail = none) (h4 : w.saveConnOk = true)
    (h5 : w.saveExecOk = true) (h6 : w.typingDeleteOk = true) :
    (handle_message (StoreRead.record prior) userMsg (Response.ok replyText) w).deliveredChunks =
        (chunkText (clean_markdown (format_list_as_markdown replyText)) MAX_CHUNK_SIZE).take k ++
          chunkText replyText MAX_CHUNK_SIZE ∧
      (chunkText replyText MAX_CHUNK_SIZE).flatten = replyText ∧
      (handle_message (StoreRead.record prior) userMsg (Response.ok replyText) w).savedHistory =
        some (prior ++ [{ role := userRole, content := clean_markdown userMsg },
          { role := assistantRole,
            content := clean_markdown (format_list_as_markdown replyText) }]) ∧
      (handle_message (StoreRead.record prior) userMsg (Response.ok replyText) w).notices = [] := by
  refine ⟨?_, chunkText_flatten _ _, ?_, ?_⟩ <;>
    simp [handle_message, get_context, save_context, send_message_in_chunks,
      h1, h2, h3, h4, h5, h6, hk, ite_isEmpty_self, map_turn_projection]

/-- Witness for C8: formatted dispatch raises at its first chunk. -/
theorem formatted_dispatch_failure_falls_back_witness :
    (handle_message (StoreRead.record []) ("hi".data) (Response.ok ("x".data))
        ⟨true, some 0, none, true, true, true⟩).deliveredChunks =
        (chunkText (clean_markdown (format_list_as_markdown ("x".data))) MAX_CHUNK_SIZE).take 0 ++
          chunkText ("x".data) MAX_CHUNK_SIZE ∧
      (chunkText ("x".data) MAX_CHUNK_SIZE).flatten = "x".data ∧
      (handle_message (StoreRead.record []) ("hi".data) (Response.ok ("x".data))
        ⟨true, some 0, none, true, true, true⟩).savedHistory =
        some ([] ++ [{ role := userRole, content := clean_markdown ("hi".data) },
          { role := assistantRole,
            content := clean_markdown (format_list_as_markdown ("x".data)) }]) ∧
      (handle_message (StoreRead.record []) ("hi".data) (Response.ok ("x".data))
        ⟨true, some 0, none, true, true, true⟩).notices = [] :=
  formatted_dispatch_failure_falls_back [] ("hi".data) ("x".data)
    ⟨true, some 0, none, true, true, true⟩ 0 rfl rfl (by decide) rfl rfl rfl rfl

/-- Counterexample to C9 as stated: with a well-formed, non-empty reply
and every other collaborator healthy, a failure of the "Печатает..."
send alone aborts the handler inside its `try` block — the LLM is never
called, no reply chunk is dispatched and nothing is persisted. -/
theorem typing_send_failure_blocks_dispatch :
    handle_message (StoreRead.record []) ("hi".data) (Response.ok ("reply".data))
        ⟨false, none, none, true, true, true⟩ =
      { crashed := false, llmPrompt := none, llmMessages := none,
        deliveredChunks := [], savedHistory := none,
        notices := [genericErrorMsg], typingDeleted := false } := by
  decide

/-- C9 as amended: only the removal of the typing indicator is
best-effort — its deletion happens after dispatch and persistence, so a
deletion failure changes neither; a failure to send the indicator,
however, aborts the exchange before the LLM call. -/
theorem typing_delete_failure_harmless (prior : List Turn)
    (userMsg replyText : Text) (w : World) (h1 : w.typingSendOk = true)
    (h2 : w.formattedFail = none) (h3 : w.saveConnOk = true)
    (h4 : w.saveExecOk = true) (h5 : w.typingDeleteOk = false) :
    (handle_message (StoreRead.record prior) userMsg (Response.ok replyText) w).deliveredChunks.flatten =
        clean_markdown (format_list_as_markdown replyText) ∧
      (handle_message (StoreRead.record prior) userMsg (Response.ok replyText) w).savedHistory =
        some (prior ++ [{ role := userRole, content := clean_markdown userMsg },
          { role := assistantRole,
            content := clean_markdown (format_list_as_markdown replyText) }]) := by
  rw [handle_message_ok_spec prior userMsg replyText w h1 h2 h3 h4]
  exact ⟨chunkText_flatten _ _, rfl⟩

/-- Witness for the amended C9: typing deletion fails, reply still
dispatched and history persisted. -/
theorem typing_delete_failure_harmless_witness :
    (handle_message (StoreRead.record []) ("hi".data) (Response.ok ("reply".data))
        ⟨true, none, none, true, true, false⟩).deliveredChunks.flatten =
        clean_markdown (format_list_as_markdown ("reply".data)) ∧
      (handle_message (StoreRead.record []) ("hi".data) (Response.ok ("reply".data))
        ⟨true, none, none, true, true, false⟩).savedHistory =
        some ([] ++ [{ role := userRole, content := clean_markdown ("hi".data) },
          { role := assistantRole,
            content := clean_markdown (format_list_as_markdown ("reply".data)) }]) :=
  typing_delete_failure_harmless [] ("hi".data) ("reply".data)
    ⟨true, none, none, true, true, false⟩ rfl rfl rfl rfl rfl

/-- Counterexample to C3 as stated: a failure to establish the storage
connection is not swallowed by `get_context` — the connection is
acquired before the `try` block and `get_db_connection` re-raises, so no
empty history is returned. -/
theorem load_conn_failure_not_swallowed :
    get_context StoreRead.connFail ≠ Except.ok ([] : List Turn) := by
  intro h
  exact Except.noConfusion h

/-- C3 as amended: a failure of the query or of deserialization during
load is swallowed and yields the empty history, as does an absent
record; but a failure to establish the connection itself propagates out
of `get_context` and escapes `handle_message` (which calls it before its
own `try` block). -/
theorem load_failures_swallowed_except_connection :
    get_context StoreRead.queryFail = Except.ok [] ∧
      get_context StoreRead.deserFail = Except.ok [] ∧
      get_context StoreRead.noRecord = Except.ok [] ∧
      get_context StoreRead.connFail = Except.error () ∧
      (handle_message StoreRead.connFail ("hi".data) Response.absent
          ⟨true, none, none, true, true, true⟩).crashed = true :=
  ⟨rfl, rfl, rfl, rfl, rfl⟩

end Bot
